import Mathlib

set_option autoImplicit false

/-!
Shallow embedding of the resilient RabbitMQ client of package `mq`
(`internal/mq/mq.go`): the `tableCarrier` trace-propagation adapter, the
`Publisher` with its supervised reconnect loop, and the `Consumer` with its
ack/nack dispatch loop.  Go maps become association lists, fallible external
calls (dial, channel open, QoS, queue declare, send) become `Except`-valued
parameters, and the side effects a call performs are returned as an explicit
trace so that claims about "what was called with which arguments" are
statable.
-/

namespace MQ

/-- A value stored in an `amqp.Table` (`map[string]interface{}` in Go):
either a string or a non-string scalar, which `fmt.Sprintf("%v", val)`
renders to a string. -/
inductive TableValue where
  | vstr (s : String)
  | vint (n : Int)
  | vbool (b : Bool)
  deriving DecidableEq, Repr

/-- Rendering `fmt.Sprintf("%v", val)` for the scalars we model. -/
def sprintv : TableValue → String
  | .vstr s => s
  | .vint n => toString n
  | .vbool b => toString b

/-- Model of `amqp.Table`: a string-keyed map, modelled as an association list where
lookup takes the first binding and update removes the shadowed binding. -/
abbrev Table := List (String × TableValue)

/-- Map lookup `val, ok := c.table[key]`. -/
def tableGet (t : Table) (k : String) : Option TableValue :=
  (t.find? (fun p => p.1 == k)).map (fun p => p.2)

/-- Map assignment `c.table[key] = value`: inserts or overwrites. -/
def tableSet (t : Table) (k : String) (v : TableValue) : Table :=
  (k, v) :: t.filter (fun p => p.1 != k)

/-- Struct `tableCarrier` adapts `amqp.Table` to `TextMapCarrier` (OpenTelemetry). -/
structure tableCarrier where
  table : Table
  deriving Repr

/-- Method `tableCarrier.Get`: the stored value if it is a string, its `%v`
stringification if present but non-string, `""` if absent. -/
def tableCarrier.Get (c : tableCarrier) (key : String) : String :=
  match tableGet c.table key with
  | some (.vstr str) => str
  | some val => sprintv val
  | none => ""

/-- Method `tableCarrier.Set`: writes through to the underlying map. -/
def tableCarrier.Set (c : tableCarrier) (key value : String) : tableCarrier :=
  ⟨tableSet c.table key (.vstr value)⟩

/-- Method `tableCarrier.Keys`: all keys of the underlying map. -/
def tableCarrier.Keys (c : tableCarrier) : List String :=
  c.table.map (fun p => p.1)

/-! ### Consumer -/

/-- Model of `amqp.Queue` as returned by `QueueDeclare` (only the name matters to
this client). -/
structure Queue where
  Name : String
  deriving DecidableEq, Repr

/-- The `Consumer` struct (its channel, logger and config are abstracted
away; the declared queue is kept). -/
structure Consumer where
  q : Queue
  deriving Repr

/-- One external AMQP call made during `NewConsumer`, with exactly the
arguments the code passes. -/
inductive ConsumerCall where
  | channelOpen
  | qos (prefetchCount prefetchSize : Int) (globalFlag : Bool)
  | queueDeclare (name : String) (durable autoDelete exclusive noWait : Bool)
  deriving DecidableEq, Repr

/-- Results of the external AMQP operations `NewConsumer` performs:
`conn.Channel()`, `ch.Qos(...)` and `ch.QueueDeclare(...)`. -/
structure ConsumerConn where
  channelRes : Except String Unit
  qosRes : Int → Int → Bool → Except String Unit
  queueDeclareRes : String → Bool → Bool → Bool → Bool → Except String Queue

/-- Constructor `NewConsumer(conn, queueName, prefetch, log, cfg)`: opens a channel,
defaults `prefetch` to 10 when `≤ 0`, sets QoS, declares the queue
`(queueName, durable=true, autoDelete=false, exclusive=false, noWait=false)`.
Returns the constructed `Consumer` or the first error, plus the trace of
external calls made. -/
def NewConsumer (conn : ConsumerConn) (queueName : String) (prefetch : Int) :
    Except String Consumer × List ConsumerCall :=
  match conn.channelRes with
  | .error err => (.error err, [.channelOpen])
  | .ok _ =>
    let prefetch := if prefetch ≤ 0 then 10 else prefetch
    match conn.qosRes prefetch 0 false with
    | .error err => (.error err, [.channelOpen, .qos prefetch 0 false])
    | .ok _ =>
      match conn.queueDeclareRes queueName true false false false with
      | .error err =>
        (.error err,
         [.channelOpen, .qos prefetch 0 false,
          .queueDeclare queueName true false false false])
      | .ok q =>
        (.ok ⟨q⟩,
         [.channelOpen, .qos prefetch 0 false,
          .queueDeclare queueName true false false false])

/-- One event observed by `Handle`'s `select`: context cancellation, the
delivery channel closing (`ok == false`), or the next delivery (its headers
and payload bytes). The list is the linearized order in which the loop
observes events. -/
inductive ConsumeEvent where
  | ctxDone
  | chanClosed
  | deliver (headers : Option Table) (body : List Nat)
  deriving Repr

/-- An acknowledgment call issued to the broker for one delivery:
`d.Ack(multiple)` or `d.Nack(multiple, requeue)`. -/
inductive AckOutcome where
  | ack (multiple : Bool)
  | nack (multiple requeue : Bool)
  deriving DecidableEq, Repr

/-- Why the `for { select ... } }` loop of `Handle` returned:
`return ctx.Err()` or `return errors.New("consumer channel closed")`. -/
inductive HandleExit where
  | ctxErr
  | channelClosed
  deriving DecidableEq, Repr

/-- Outcome of a `Handle` call on a finite event prefix. -/
inductive HandleResult where
  | consumeErr (e : String)
  | exited (ex : HandleExit)
  | looping
  deriving DecidableEq, Repr

/-- The `for { select ... } }` loop body of `Consumer.Handle`: on
`ctx.Done()` return the context error; on a closed delivery channel return
the channel-closed error; on a delivery run the handler, `Nack(false, true)`
on a handler error and `Ack(false)` otherwise, and continue. Returns the
acknowledgment calls issued (paired with the delivery body each was issued
for) and the exit cause, `none` when the finite prefix ran out with the
loop still waiting. -/
def handleLoop (handler : List Nat → Option String) :
    List ConsumeEvent → List (List Nat × AckOutcome) × Option HandleExit
  | [] => ([], none)
  | ConsumeEvent.ctxDone :: _ => ([], some HandleExit.ctxErr)
  | ConsumeEvent.chanClosed :: _ => ([], some HandleExit.channelClosed)
  | ConsumeEvent.deliver _ body :: rest =>
    match handler body with
    | some _ =>
      let r := handleLoop handler rest
      ((body, AckOutcome.nack false true) :: r.1, r.2)
    | none =>
      let r := handleLoop handler rest
      ((body, AckOutcome.ack false) :: r.1, r.2)

/-- Method `Consumer.Handle(ctx, handler)`: `c.ch.Consume(...)` first (propagating
its error), then the dispatch loop. -/
def Consumer.Handle (c : Consumer) (consumeRes : Except String Unit)
    (handler : List Nat → Option String) (events : List ConsumeEvent) :
    List (List Nat × AckOutcome) × HandleResult :=
  match consumeRes with
  | .error e => ([], .consumeErr e)
  | .ok _ =>
    let r := handleLoop handler events
    (r.1,
     match r.2 with
     | some ex => HandleResult.exited ex
     | none => HandleResult.looping)

/-- Whether a `select` arm terminates the loop. -/
def ConsumeEvent.isTerminal : ConsumeEvent → Bool
  | .ctxDone => true
  | .chanClosed => true
  | .deliver _ _ => false

/-- The bodies of the deliveries the loop processes: the deliveries before
the first terminating event. -/
def processedBodies (events : List ConsumeEvent) : List (List Nat) :=
  (events.takeWhile (fun e => ! e.isTerminal)).filterMap
    (fun e => match e with | .deliver _ b => some b | _ => none)

/-- The single acknowledgment call the loop issues for a delivery body. -/
def outcomeFor (handler : List Nat → Option String) (b : List Nat) :
    AckOutcome :=
  match handler b with
  | some _ => .nack false true
  | none => .ack false

/-! ### Publisher -/

/-- An open AMQP channel held by the publisher, identified abstractly. -/
structure Chan where
  id : Nat
  deriving DecidableEq, Repr

/-- The mutable fields of the `Publisher` struct guarded by `p.mu` (logger,
config and dial function are abstracted away). -/
structure Publisher where
  conn : Option Nat
  ch : Option Chan
  closed : Bool
  deriving DecidableEq, Repr

/-- The two errors `getChannel` constructs. -/
inductive ChanErr where
  | closedErr
  | notAvailable
  deriving DecidableEq, Repr

/-- Error strings of `getChannel`. -/
def ChanErr.message : ChanErr → String
  | .closedErr => "publisher is closed"
  | .notAvailable => "channel is not available"

/-- Method `Publisher.getChannel`: under the read lock, fail when closed,
fail when no channel is set, otherwise return the current channel. -/
def Publisher.getChannel (p : Publisher) : Except ChanErr Chan :=
  if p.closed then .error .closedErr
  else
    match p.ch with
    | none => .error .notAvailable
    | some c => .ok c

/-- Constructor `NewPublisher(conn, log, cfg, dialFn)`: opens a channel on
the given connection (`channelRes` is the result of `conn.Channel()`), sets
`Qos(0, 0, false)` (`qosRes`), and on success returns the publisher with the
fresh channel installed and a watcher started; on error returns it and no
publisher. -/
def NewPublisher (connId : Nat) (channelRes : Except String Chan)
    (qosRes : Except String Unit) : Except String Publisher :=
  match channelRes with
  | .error e => .error e
  | .ok ch =>
    match qosRes with
    | .error e => .error e
    | .ok _ => .ok ⟨some connId, some ch, false⟩

/-- One serialized mutation of the `Publisher`'s guarded fields (the
read/write lock `p.mu` serializes them): `Close()` sets `closed` and keeps
the channel field, and the install step of a successful `reconnect()` sets
`p.conn = conn; p.ch = ch` with a freshly opened channel. -/
inductive PubOp where
  | close
  | reconnectInstall (connId : Nat) (c : Chan)
  deriving Repr

/-- Effect of one serialized operation on the guarded fields. -/
def pubStep (p : Publisher) : PubOp → Publisher
  | .close => { p with closed := true }
  | .reconnectInstall connId c => { p with conn := some connId, ch := some c }

/-- Effect of a serialized sequence of operations. -/
def pubRun (p : Publisher) (ops : List PubOp) : Publisher :=
  ops.foldl pubStep p

/-! ### Reconnect backoff -/

/-- Constant `maxBackoff = 30 * time.Second`, counted in seconds. -/
def maxBackoff : Nat := 30

/-- Update `backoff = min(backoff*2, maxBackoff)` performed after each
failed attempt. -/
def nextBackoff (b : Nat) : Nat := min (b * 2) maxBackoff

/-- The delay `reconnect` sleeps after its `i`-th consecutive failed
attempt, starting from the seed `backoff := time.Second`. -/
def backoffAt : Nat → Nat
  | 0 => 1
  | i + 1 => nextBackoff (backoffAt i)

/-- The sleeps performed by one invocation of `reconnect` whose first
`failures` attempts fail (a failure is a dial, channel-open, or QoS-set
error — each branch sleeps the current `backoff` and then doubles it, capped)
and whose next attempt succeeds (installing the connection with no further
sleep). -/
def reconnectSleepsFrom : Nat → Nat → List Nat
  | 0, _ => []
  | failures + 1, backoff =>
    backoff :: reconnectSleepsFrom failures (nextBackoff backoff)

/-- Entry to `reconnect()`: the local `backoff` is re-seeded at
`time.Second`. -/
def reconnectSleeps (failures : Nat) : List Nat :=
  reconnectSleepsFrom failures 1

/-! ### PublishJSON -/

/-- Constant `amqp.Persistent` (delivery mode 2). -/
def Persistent : Nat := 2

/-- Model of `amqp.Publishing`: the envelope fields `PublishJSON` sets. -/
structure Publishing where
  ContentType : String
  DeliveryMode : Nat
  Timestamp : Int
  Body : List Nat
  Headers : Table
  deriving DecidableEq, Repr

/-- Observable steps `PublishJSON` performs, in order.  A `send` is the
synchronous `ch.PublishWithContext(ctx, exchangeName, routingKey, mandatory,
immediate, msg)` call — the plain publish primitive, which does not wait for
a publisher confirm. -/
inductive PubEffect where
  | spanStart (name : String)
  | injectHeaders
  | getChannelCall
  | send (exchangeName routingKey : String) (mandatory immediate : Bool)
      (msg : Publishing)
  | spanEnd
  deriving DecidableEq, Repr

/-- Errors `PublishJSON` returns: the serialization error untouched, the
`getChannel` error wrapped as `failed to get channel: %w`, or the
synchronous send error untouched. -/
inductive PubErr where
  | marshal (e : String)
  | failedToGetChannel (wrapped : ChanErr)
  | sendErr (e : String)
  deriving DecidableEq, Repr

/-- Number of broker sends in an effect trace. -/
def sendCount (tr : List PubEffect) : Nat :=
  tr.countP fun eff =>
    match eff with
    | .send _ _ _ _ _ => true
    | _ => false

/-- Method `Publisher.PublishJSON(ctx, exchangeName, routingKey, body)`.
`marshalRes` is the result of `sonic.Marshal(body)`; `inject` is the effect
of `propagator.Inject` on the freshly created header table; `now` is
`time.Now()`; `sendRes` gives the synchronous result of
`ch.PublishWithContext`.  Returns the call's result and the ordered trace of
steps performed. -/
def Publisher.PublishJSON (p : Publisher) (exchangeName routingKey : String)
    (marshalRes : Except String (List Nat)) (inject : Table → Table)
    (now : Int)
    (sendRes : Chan → String → String → Bool → Bool → Publishing →
      Except String Unit) :
    Except PubErr Unit × List PubEffect :=
  match marshalRes with
  | .error e => (.error (.marshal e), [])
  | .ok b =>
    let headers := inject []
    let msg : Publishing := ⟨"application/json", Persistent, now, b, headers⟩
    match p.getChannel with
    | .error ce =>
      (.error (.failedToGetChannel ce),
       [.spanStart "rabbitmq.publish", .injectHeaders, .getChannelCall,
        .spanEnd])
    | .ok ch =>
      match sendRes ch exchangeName routingKey false false msg with
      | .error e =>
        (.error (.sendErr e),
         [.spanStart "rabbitmq.publish", .injectHeaders, .getChannelCall,
          .send exchangeName routingKey false false msg, .spanEnd])
      | .ok _ =>
        (.ok (),
         [.spanStart "rabbitmq.publish", .injectHeaders, .getChannelCall,
          .send exchangeName routingKey false false msg, .spanEnd])

/-! ### Close path -/

/-- Error string `amqp.ErrClosed` returned by the amqp091 library when an
operation is attempted on an already-closed channel. -/
def ErrClosed : String := "channel/connection is not open"

/-- State for the close-path analysis: the publisher's `closed` flag and
channel field, plus the state of the underlying channel object and the
number of live watcher loops (one is started by `NewPublisher`). -/
structure CloseState where
  pubClosed : Bool
  chPresent : Bool
  chClosed : Bool
  chCloseTransitions : Nat
  watcherRuns : Nat
  deriving DecidableEq, Repr

/-- Method `Publisher.Close()` under the write lock: set `p.closed = true`,
then `p.ch.Close()` when a channel is set.  The channel's `Close` is the
external amqp091 primitive: closing an already-closed channel performs no
second close and returns `ErrClosed` (the library documents `Close` as safe
to call multiple times). -/
def PublisherClose (s : CloseState) : CloseState × Option String :=
  let s1 := { s with pubClosed := true }
  if s.chPresent then
    if s.chClosed then (s1, some ErrClosed)
    else
      ({ s1 with chClosed := true, chCloseTransitions := s.chCloseTransitions + 1 },
       none)
  else (s1, none)

/-- One pass of `watchConnection`'s closed-check (`if p.closed { return }`):
a live watcher observing `p.closed == true` returns, ending its loop. -/
def watcherCheck (s : CloseState) : CloseState :=
  if s.pubClosed && s.watcherRuns > 0 then
    { s with watcherRuns := s.watcherRuns - 1 }
  else s

/-! ### Helper lemmas -/

theorem tableGet_tableSet_same (t : Table) (k : String) (v : TableValue) :
    tableGet (tableSet t k v) k = some v := by
  simp [tableGet, tableSet, List.find?]

theorem find?_filter_ne (t : Table) (k j : String) (h : j ≠ k) :
    (t.filter (fun p => p.1 != k)).find? (fun p => p.1 == j) =
      t.find? (fun p => p.1 == j) := by
  induction t with
  | nil => rfl
  | cons a rest ih =>
    rw [List.filter_cons, List.find?_cons]
    by_cases hk : a.1 = k
    · have h1 : (a.1 != k) = false := by simp [hk]
      have h2 : (a.1 == j) = false := by
        rw [hk]
        exact beq_false_of_ne (Ne.symm h)
      rw [h1, h2]
      simpa using ih
    · have h1 : (a.1 != k) = true := by simp [hk]
      rw [h1, if_pos rfl, List.find?_cons]
      cases hj : (a.1 == j) with
      | true => rfl
      | false => exact ih

theorem tableGet_tableSet_ne (t : Table) (k j : String) (v : TableValue)
    (h : j ≠ k) : tableGet (tableSet t k v) j = tableGet t j := by
  simp only [tableGet, tableSet, List.find?]
  have : (k == j) = false := by simp [Ne.symm h]
  rw [this]
  simp only [find?_filter_ne t k j h]

theorem mem_map_fst_iff_get_isSome (t : Table) (k : String) :
    k ∈ t.map (fun p => p.1) ↔ (tableGet t k).isSome := by
  induction t with
  | nil => simp [tableGet]
  | cons a rest ih =>
    by_cases hk : a.1 = k
    · simp [tableGet, List.find?_cons, hk]
    · have h2 : (a.1 == k) = false := beq_false_of_ne hk
      have h3 : ¬ k = a.1 := fun hh => hk hh.symm
      simp only [tableGet, List.map_cons, List.mem_cons, List.find?_cons, h2, h3,
        false_or]
      exact ih

theorem mem_keys_iff_get_isSome (t : Table) (k : String) :
    k ∈ tableCarrier.Keys ⟨t⟩ ↔ (tableGet t k).isSome :=
  mem_map_fst_iff_get_isSome t k

theorem handleLoop_outcomes (handler : List Nat → Option String)
    (events : List ConsumeEvent) :
    (handleLoop handler events).1 =
      (processedBodies events).map (fun b => (b, outcomeFor handler b)) := by
  induction events with
  | nil => rfl
  | cons e rest ih =>
    cases e with
    | ctxDone => rfl
    | chanClosed => rfl
    | deliver hs b =>
      cases hh : handler b <;>
        simp [handleLoop, processedBodies, ConsumeEvent.isTerminal,
          List.takeWhile, outcomeFor, hh, ih]

theorem handleLoop_exit (handler : List Nat → Option String)
    (events : List ConsumeEvent) :
    (handleLoop handler events).2 =
      (match events.find? ConsumeEvent.isTerminal with
       | some .ctxDone => some HandleExit.ctxErr
       | some .chanClosed => some HandleExit.channelClosed
       | _ => none) := by
  induction events with
  | nil => rfl
  | cons e rest ih =>
    cases e with
    | ctxDone => rfl
    | chanClosed => rfl
    | deliver hs b =>
      cases hh : handler b <;>
        simpa [handleLoop, ConsumeEvent.isTerminal, List.find?, hh] using ih

theorem pubRun_ch_isSome (p : Publisher) (ops : List PubOp)
    (h : p.ch.isSome = true) : (pubRun p ops).ch.isSome = true := by
  induction ops generalizing p with
  | nil => exact h
  | cons op rest ih =>
    cases op with
    | close => exact ih _ h
    | reconnectInstall connId c => exact ih _ rfl

theorem pubRun_closed (p : Publisher) (ops : List PubOp)
    (h : p.closed = true) : (pubRun p ops).closed = true := by
  induction ops generalizing p with
  | nil => exact h
  | cons op rest ih =>
    cases op with
    | close => exact ih _ rfl
    | reconnectInstall connId c => exact ih _ h

theorem backoffAt_eq (i : Nat) : backoffAt i = min (2 ^ i) 30 := by
  induction i with
  | zero => decide
  | succ i ih =>
    rw [backoffAt, ih]
    simp only [nextBackoff, maxBackoff, pow_succ]
    omega

theorem reconnectSleepsFrom_eq (n i : Nat) :
    reconnectSleepsFrom n (backoffAt i) =
      (List.range n).map (fun j => backoffAt (i + j)) := by
  induction n generalizing i with
  | zero => rfl
  | succ n ih =>
    have hstep : reconnectSleepsFrom (n + 1) (backoffAt i) =
        backoffAt i :: reconnectSleepsFrom n (backoffAt (i + 1)) := rfl
    rw [hstep, ih (i + 1), List.range_succ_eq_map]
    simp only [List.map_cons, List.map_map, Nat.add_zero]
    refine List.cons_eq_cons.mpr ⟨rfl, ?_⟩
    apply List.map_congr_left
    intro j _
    simp only [Function.comp]
    congr 1
    omega

theorem list_range_map_sum (n : Nat) (f : Nat → Nat) :
    ((List.range n).map f).sum = ∑ j ∈ Finset.range n, f j := by
  induction n with
  | zero => rfl
  | succ n ih =>
    rw [List.range_succ, List.map_append, List.sum_append,
      Finset.sum_range_succ, ih]
    simp

/-! ### Claim theorems -/

/-- C1: every delivery processed by `Consumer.Handle` receives exactly one
acknowledgment outcome, exactly once — the outcome trace has exactly one
entry per processed delivery, `Nack(multiple=false, requeue=true)` when the
handler returns an error and `Ack(multiple=false)` when it returns nil —
and the loop continues past both cases to the remaining deliveries. -/
theorem handle_ack_nack_exclusivity (c : Consumer)
    (handler : List Nat → Option String) (events : List ConsumeEvent) :
    (c.Handle (.ok ()) handler events).1 =
      (processedBodies events).map (fun b => (b, outcomeFor handler b)) ∧
    (∀ b e, handler b = some e → outcomeFor handler b = .nack false true) ∧
    (∀ b, handler b = none → outcomeFor handler b = .ack false) := by
  refine ⟨?_, ?_, ?_⟩
  · simpa [Consumer.Handle] using handleLoop_outcomes handler events
  · intro b e he
    simp [outcomeFor, he]
  · intro b he
    simp [outcomeFor, he]

/-- Concrete run for C1: two deliveries, the first one failing in the
handler, the second one succeeding. -/
theorem handle_ack_nack_exclusivity_witness :
    (Consumer.Handle ⟨⟨"q"⟩⟩ (.ok ())
        (fun b => if b = [1] then some "boom" else none)
        [ConsumeEvent.deliver none [1], ConsumeEvent.deliver none [2]]).1 =
      [([1], AckOutcome.nack false true), ([2], AckOutcome.ack false)] ∧
    outcomeFor (fun b => if b = [1] then some "boom" else none) [1] =
      AckOutcome.nack false true := by
  have h := handle_ack_nack_exclusivity ⟨⟨"q"⟩⟩
      (fun b => if b = [1] then some "boom" else none)
      [ConsumeEvent.deliver none [1], ConsumeEvent.deliver none [2]]
  exact ⟨by rw [h.1]; rfl, h.2.1 [1] "boom" rfl⟩

/-- C3: `Handle` (once consuming has started) terminates only on context
cancellation — returning the context's error — or on the delivery channel
closing — returning the consumer-channel-closed error; with no such event a
handler failure leaves the loop running, never a return or a panic (the
model is a total function). -/
theorem handle_exit_conditions (c : Consumer)
    (handler : List Nat → Option String) (events : List ConsumeEvent) :
    ((c.Handle (.ok ()) handler events).2 =
      match events.find? ConsumeEvent.isTerminal with
      | some .ctxDone => HandleResult.exited .ctxErr
      | some .chanClosed => HandleResult.exited .channelClosed
      | _ => HandleResult.looping) ∧
    ((∀ e ∈ events, e.isTerminal = false) →
      (c.Handle (.ok ()) handler events).2 = HandleResult.looping) := by
  have hmain : (c.Handle (.ok ()) handler events).2 =
      (match events.find? ConsumeEvent.isTerminal with
       | some .ctxDone => HandleResult.exited .ctxErr
       | some .chanClosed => HandleResult.exited .channelClosed
       | _ => HandleResult.looping) := by
    have h1 : (c.Handle (.ok ()) handler events).2 =
        (match (handleLoop handler events).2 with
         | some ex => HandleResult.exited ex
         | none => HandleResult.looping) := rfl
    rw [h1, handleLoop_exit]
    cases hfind : events.find? ConsumeEvent.isTerminal with
    | none => rfl
    | some ev => cases ev <;> rfl
  refine ⟨hmain, fun hnone => ?_⟩
  rw [hmain]
  have : events.find? ConsumeEvent.isTerminal = none :=
    List.find?_eq_none.mpr (fun e he => by simp [hnone e he])
  rw [this]

/-- Concrete run for C3: a failing delivery alone leaves the loop running;
with a channel-close event afterwards the loop exits with the
channel-closed error. -/
theorem handle_exit_conditions_witness :
    (Consumer.Handle ⟨⟨"q"⟩⟩ (.ok ()) (fun _ => some "boom")
        [ConsumeEvent.deliver none [7]]).2 = HandleResult.looping ∧
    (Consumer.Handle ⟨⟨"q"⟩⟩ (.ok ()) (fun _ => some "boom")
        [ConsumeEvent.deliver none [7], ConsumeEvent.chanClosed]).2 =
      HandleResult.exited .channelClosed := by
  constructor
  · exact (handle_exit_conditions ⟨⟨"q"⟩⟩ (fun _ => some "boom")
      [ConsumeEvent.deliver none [7]]).2 (by intro e he; simp at he; simp [he, ConsumeEvent.isTerminal])
  · have h := (handle_exit_conditions ⟨⟨"q"⟩⟩ (fun _ => some "boom")
      [ConsumeEvent.deliver none [7], ConsumeEvent.chanClosed]).1
    rw [h]
    rfl

/-- C6: the trace-carrier adapter over a header map: `Get` returns the
stored string, the stringified form of a present non-string, and `""` for
an absent key; `Set` inserts or overwrites the entry; `Keys` is exactly the
key set of the map; and a `Set` followed by `Get` — also on a second
carrier wrapping a copy (any map with the same entries) — returns the set
value. -/
theorem tableCarrier_contract :
    (∀ t k s, tableGet t k = some (.vstr s) → tableCarrier.Get ⟨t⟩ k = s) ∧
    (∀ t k n, tableGet t k = some (.vint n) →
      tableCarrier.Get ⟨t⟩ k = toString n) ∧
    (∀ t k b, tableGet t k = some (.vbool b) →
      tableCarrier.Get ⟨t⟩ k = toString b) ∧
    (∀ t k, tableGet t k = none → tableCarrier.Get ⟨t⟩ k = "") ∧
    (∀ t k v, tableGet (tableCarrier.Set ⟨t⟩ k v).table k = some (.vstr v)) ∧
    (∀ t k j v, j ≠ k →
      tableGet (tableCarrier.Set ⟨t⟩ k v).table j = tableGet t j) ∧
    (∀ t k, k ∈ tableCarrier.Keys ⟨t⟩ ↔ (tableGet t k).isSome) ∧
    (∀ t k v t2,
      (∀ j, tableGet t2 j = tableGet (tableCarrier.Set ⟨t⟩ k v).table j) →
      tableCarrier.Get ⟨t2⟩ k = v) := by
  refine ⟨?_, ?_, ?_, ?_, ?_, ?_, ?_, ?_⟩
  · intro t k s h
    simp [tableCarrier.Get, h]
  · intro t k n h
    simp [tableCarrier.Get, h, sprintv]
  · intro t k b h
    simp [tableCarrier.Get, h, sprintv]
  · intro t k h
    simp [tableCarrier.Get, h]
  · intro t k v
    exact tableGet_tableSet_same t k (.vstr v)
  · intro t k j v h
    exact tableGet_tableSet_ne t k j (.vstr v) h
  · intro t k
    exact mem_keys_iff_get_isSome t k
  · intro t k v t2 hcopy
    have : tableGet t2 k = some (.vstr v) := by
      rw [hcopy k]
      exact tableGet_tableSet_same t k (.vstr v)
    simp [tableCarrier.Get, this]

/-- Concrete run for C6: a trace key round-trips through `Set` then `Get`
on a second carrier over the same entries. -/
theorem tableCarrier_contract_witness :
    tableCarrier.Get
      ⟨(tableCarrier.Set ⟨[]⟩ "traceparent" "00-aa-bb-01").table⟩
      "traceparent" = "00-aa-bb-01" :=
  tableCarrier_contract.2.2.2.2.2.2.2 [] "traceparent" "00-aa-bb-01"
    (tableCarrier.Set ⟨[]⟩ "traceparent" "00-aa-bb-01").table
    (fun _ => rfl)

/-- C7: `NewConsumer` opens a channel on the connection, sets the prefetch
to 10 whenever the caller's value is ≤ 0 and to the caller's value
otherwise (every QoS call in its trace carries exactly that count, size 0,
global false), declares the queue durable, not auto-deleted, not exclusive;
a failing step makes construction return that error and no consumer, and
with all steps succeeding the consumer holds the declared queue. -/
theorem newConsumer_contract (conn : ConsumerConn) (queueName : String)
    (prefetch : Int) :
    ConsumerCall.channelOpen ∈ (NewConsumer conn queueName prefetch).2 ∧
    (∀ pc ps g,
      ConsumerCall.qos pc ps g ∈ (NewConsumer conn queueName prefetch).2 →
      pc = (if prefetch ≤ 0 then 10 else prefetch) ∧ ps = 0 ∧ g = false) ∧
    (∀ nm d a ex nw,
      ConsumerCall.queueDeclare nm d a ex nw ∈
          (NewConsumer conn queueName prefetch).2 →
      nm = queueName ∧ d = true ∧ a = false ∧ ex = false ∧ nw = false) ∧
    (conn.channelRes = .ok () →
      ConsumerCall.qos (if prefetch ≤ 0 then 10 else prefetch) 0 false ∈
        (NewConsumer conn queueName prefetch).2) ∧
    (∀ e, conn.channelRes = .error e →
      (NewConsumer conn queueName prefetch).1 = .error e) ∧
    (∀ e, conn.channelRes = .ok () →
      conn.qosRes (if prefetch ≤ 0 then 10 else prefetch) 0 false = .error e →
      (NewConsumer conn queueName prefetch).1 = .error e) ∧
    (∀ e, conn.channelRes = .ok () →
      conn.qosRes (if prefetch ≤ 0 then 10 else prefetch) 0 false = .ok () →
      conn.queueDeclareRes queueName true false false false = .error e →
      (NewConsumer conn queueName prefetch).1 = .error e) ∧
    (∀ q, conn.channelRes = .ok () →
      conn.qosRes (if prefetch ≤ 0 then 10 else prefetch) 0 false = .ok () →
      conn.queueDeclareRes queueName true false false false = .ok q →
      (NewConsumer conn queueName prefetch).1 = .ok ⟨q⟩) := by
  rcases hch : conn.channelRes with e | u
  · refine ⟨by simp [NewConsumer, hch], ?_, ?_, ?_, ?_, ?_, ?_, ?_⟩ <;>
      simp [NewConsumer, hch]
  · obtain rfl : u = () := rfl
    rcases hq : conn.qosRes (if prefetch ≤ 0 then 10 else prefetch) 0 false
      with e | u2
    · refine ⟨by simp [NewConsumer, hch, hq], ?_, ?_, ?_, ?_, ?_, ?_, ?_⟩ <;>
        simp [NewConsumer, hch, hq]
    · obtain rfl : u2 = () := rfl
      rcases hd : conn.queueDeclareRes queueName true false false false
        with e | q
      · refine ⟨by simp [NewConsumer, hch, hq, hd], ?_, ?_, ?_, ?_, ?_, ?_, ?_⟩ <;>
          simp [NewConsumer, hch, hq, hd]
      · refine ⟨by simp [NewConsumer, hch, hq, hd], ?_, ?_, ?_, ?_, ?_, ?_, ?_⟩ <;>
          simp [NewConsumer, hch, hq, hd]

/-- Concrete run for C7: a caller-supplied prefetch of `-3` is replaced by
the default 10, and construction succeeds with the declared queue. -/
theorem newConsumer_contract_witness :
    (NewConsumer
        ⟨.ok (), fun _ _ _ => .ok (), fun nm _ _ _ _ => .ok ⟨nm⟩⟩
        "jobs" (-3)).1 = .ok ⟨⟨"jobs"⟩⟩ ∧
    ConsumerCall.qos 10 0 false ∈
      (NewConsumer
        ⟨.ok (), fun _ _ _ => .ok (), fun nm _ _ _ _ => .ok ⟨nm⟩⟩
        "jobs" (-3)).2 := by
  have h := newConsumer_contract
    ⟨.ok (), fun _ _ _ => .ok (), fun nm _ _ _ _ => .ok ⟨nm⟩⟩ "jobs" (-3)
  constructor
  · have := h.2.2.2.2.2.2.2 ⟨"jobs"⟩ rfl rfl rfl
    simpa using this
  · have := h.2.2.2.1 rfl
    simpa using this

/-- C2 helper: a closed publisher or a missing channel makes `getChannel`
fail. -/
theorem getChannel_error_of (p : Publisher)
    (h : p.closed = true ∨ p.ch = none) : ∃ ce, p.getChannel = .error ce := by
  rcases h with h | h
  · exact ⟨.closedErr, by simp [Publisher.getChannel, h]⟩
  · by_cases hc : p.closed
    · exact ⟨.closedErr, by simp [Publisher.getChannel, hc]⟩
    · exact ⟨.notAvailable, by simp [Publisher.getChannel, hc, h]⟩

/-- Shape of a `PublishJSON` call whose `getChannel` fails. -/
theorem publishJSON_getChannel_error (p : Publisher)
    (exchangeName routingKey : String) (b : List Nat) (inject : Table → Table)
    (now : Int)
    (sendRes : Chan → String → String → Bool → Bool → Publishing →
      Except String Unit)
    (ce : ChanErr) (h : p.getChannel = .error ce) :
    p.PublishJSON exchangeName routingKey (.ok b) inject now sendRes =
      (.error (.failedToGetChannel ce),
       [.spanStart "rabbitmq.publish", .injectHeaders, .getChannelCall,
        .spanEnd]) := by
  simp [Publisher.PublishJSON, h]

/-- C2: whenever the publisher is closed or no channel is set, `PublishJSON`
with a serializable body returns the wrapped `getChannel` error and sends
nothing; and after a `Close()` every later call — across any serialized
sequence of further operations — fails with the wrapped publisher-is-closed
error, still sending nothing. -/
theorem publish_fail_closed (p : Publisher) (exchangeName routingKey : String)
    (b : List Nat) (inject : Table → Table) (now : Int)
    (sendRes : Chan → String → String → Bool → Bool → Publishing →
      Except String Unit)
    (h : p.closed = true ∨ p.ch = none) :
    (∃ ce, (p.PublishJSON exchangeName routingKey (.ok b) inject now
        sendRes).1 = .error (.failedToGetChannel ce)) ∧
    sendCount (p.PublishJSON exchangeName routingKey (.ok b) inject now
        sendRes).2 = 0 ∧
    ∀ ops,
      ((pubRun (pubStep p .close) ops).PublishJSON exchangeName routingKey
          (.ok b) inject now sendRes).1 =
        .error (.failedToGetChannel .closedErr) ∧
      sendCount ((pubRun (pubStep p .close) ops).PublishJSON exchangeName
          routingKey (.ok b) inject now sendRes).2 = 0 := by
  obtain ⟨ce, hce⟩ := getChannel_error_of p h
  have hmain := publishJSON_getChannel_error p exchangeName routingKey b
    inject now sendRes ce hce
  refine ⟨⟨ce, by rw [hmain]⟩, by rw [hmain]; rfl, fun ops => ?_⟩
  have hclosed : (pubRun (pubStep p .close) ops).closed = true :=
    pubRun_closed _ ops rfl
  have hgc : (pubRun (pubStep p .close) ops).getChannel =
      .error .closedErr := by
    simp [Publisher.getChannel, hclosed]
  have h2 := publishJSON_getChannel_error (pubRun (pubStep p .close) ops)
    exchangeName routingKey b inject now sendRes .closedErr hgc
  exact ⟨by rw [h2], by rw [h2]; rfl⟩

/-- Concrete run for C2: a fresh publisher that was closed rejects a
publish of the body bytes `[123, 125]` and sends nothing. -/
theorem publish_fail_closed_witness :
    (∃ ce, ((⟨some 0, some ⟨0⟩, true⟩ : Publisher).PublishJSON "logs" "rk"
        (.ok [123, 125]) id 0 (fun _ _ _ _ _ _ => .ok ())).1 =
      .error (.failedToGetChannel ce)) ∧
    sendCount ((⟨some 0, some ⟨0⟩, true⟩ : Publisher).PublishJSON "logs" "rk"
        (.ok [123, 125]) id 0 (fun _ _ _ _ _ _ => .ok ())).2 = 0 := by
  have h := publish_fail_closed ⟨some 0, some ⟨0⟩, true⟩ "logs" "rk"
    [123, 125] id 0 (fun _ _ _ _ _ _ => .ok ()) (Or.inl rfl)
  exact ⟨h.1, h.2.1⟩

/-- C4: the reconnect backoff — re-seeded at 1 second on each invocation of
`reconnect`, doubled after each failed attempt (dial, channel-open, or QoS
error alike), capped at 30 seconds — sleeps `min(2^i, 30)` seconds after
the `i`-th consecutive failure, so a dial function failing `N` times before
succeeding sleeps `Σ_{i<N} min(2^i, 30)` seconds in total. -/
theorem reconnect_backoff_bound (N : Nat) :
    reconnectSleeps N = (List.range N).map (fun i => min (2 ^ i) 30) ∧
    (reconnectSleeps N).sum = ∑ i ∈ Finset.range N, min (2 ^ i) 30 ∧
    backoffAt 0 = 1 := by
  have h1 : reconnectSleeps N =
      (List.range N).map (fun i => min (2 ^ i) 30) := by
    have h0 := reconnectSleepsFrom_eq N 0
    rw [show backoffAt 0 = 1 from rfl] at h0
    rw [reconnectSleeps, h0]
    apply List.map_congr_left
    intro j _
    rw [Nat.zero_add, backoffAt_eq]
  refine ⟨h1, ?_, rfl⟩
  rw [h1, list_range_map_sum]

/-- C5: with a serializable body and an available channel, `PublishJSON`
performs exactly one send: the envelope has content-type
`application/json`, the persistent delivery mode, timestamp `now`, the
serialized body, and a freshly created trace-injected header map; it goes
out over the plain no-confirm publish call with `mandatory = immediate =
false`, and a synchronous send error is returned to the caller unwrapped. -/
theorem publish_envelope (p : Publisher) (exchangeName routingKey : String)
    (b : List Nat) (inject : Table → Table) (now : Int)
    (sendRes : Chan → String → String → Bool → Bool → Publishing →
      Except String Unit)
    (ch : Chan) (h : p.getChannel = .ok ch) :
    (p.PublishJSON exchangeName routingKey (.ok b) inject now sendRes).2 =
      [.spanStart "rabbitmq.publish", .injectHeaders, .getChannelCall,
       .send exchangeName routingKey false false
         ⟨"application/json", Persistent, now, b, inject []⟩, .spanEnd] ∧
    (p.PublishJSON exchangeName routingKey (.ok b) inject now sendRes).1 =
      (match sendRes ch exchangeName routingKey false false
          ⟨"application/json", Persistent, now, b, inject []⟩ with
       | .error e => .error (.sendErr e)
       | .ok _ => .ok ()) := by
  cases hs : sendRes ch exchangeName routingKey false false
      ⟨"application/json", Persistent, now, b, inject []⟩ with
  | error e => constructor <;> simp [Publisher.PublishJSON, h, hs]
  | ok _ => constructor <;> simp [Publisher.PublishJSON, h, hs]

/-- Concrete run for C5: an open publisher sends one persistent JSON
envelope and returns success. -/
theorem publish_envelope_witness :
    ((⟨some 0, some ⟨4⟩, false⟩ : Publisher).PublishJSON "orders" "created"
        (.ok [1, 2]) id 99 (fun _ _ _ _ _ _ => .ok ())).2 =
      [.spanStart "rabbitmq.publish", .injectHeaders, .getChannelCall,
       .send "orders" "created" false false
         ⟨"application/json", Persistent, 99, [1, 2], []⟩, .spanEnd] ∧
    ((⟨some 0, some ⟨4⟩, false⟩ : Publisher).PublishJSON "orders" "created"
        (.ok [1, 2]) id 99 (fun _ _ _ _ _ _ => .ok ())).1 = .ok () := by
  have h := publish_envelope ⟨some 0, some ⟨4⟩, false⟩ "orders" "created"
    [1, 2] id 99 (fun _ _ _ _ _ _ => .ok ()) ⟨4⟩ rfl
  exact ⟨h.1, h.2⟩

/-- C8: from the post-`NewPublisher` state (open publisher, one open
channel, one live watcher), two serialized `Close()` calls — the write lock
serializes concurrent callers — leave the publisher marked closed, close
the underlying channel exactly once (the second call takes the library's
already-closed path, returning `ErrClosed` instead of closing again),
terminate exactly the one watcher loop, and are total functions, so no
panic is possible in the model. -/
theorem close_idempotent :
    (PublisherClose (PublisherClose ⟨false, true, false, 0, 1⟩).1).1.pubClosed
      = true ∧
    (PublisherClose
      (PublisherClose ⟨false, true, false, 0, 1⟩).1).1.chCloseTransitions
      = 1 ∧
    (PublisherClose (PublisherClose ⟨false, true, false, 0, 1⟩).1).2 =
      some ErrClosed ∧
    (watcherCheck
      (PublisherClose
        (PublisherClose ⟨false, true, false, 0, 1⟩).1).1).watcherRuns = 0 ∧
    (watcherCheck (watcherCheck
      (PublisherClose
        (PublisherClose ⟨false, true, false, 0, 1⟩).1).1)).watcherRuns = 0 :=
  ⟨rfl, rfl, rfl, rfl, rfl⟩

/-- C9: a publisher returned by a successful `NewPublisher` carries a
channel and keeps one across every serialized sequence of `Close` and
reconnect-install operations, so the channel-is-not-available branch of
`getChannel` is unreachable and its only possible failure is the
publisher-is-closed error. -/
theorem publisher_channel_never_nil (connId : Nat)
    (channelRes : Except String Chan) (qosRes : Except String Unit)
    (p : Publisher) (h : NewPublisher connId channelRes qosRes = .ok p)
    (ops : List PubOp) :
    (pubRun p ops).ch.isSome = true ∧
    ∀ e, (pubRun p ops).getChannel = .error e → e = ChanErr.closedErr := by
  have hch : p.ch.isSome = true := by
    cases channelRes with
    | error e => simp [NewPublisher] at h
    | ok c0 =>
      cases qosRes with
      | error e => simp [NewPublisher] at h
      | ok _ =>
        obtain rfl : (⟨some connId, some c0, false⟩ : Publisher) = p := by
          simpa [NewPublisher] using h
        rfl
  have hrun := pubRun_ch_isSome p ops hch
  refine ⟨hrun, fun e he => ?_⟩
  by_cases hc : (pubRun p ops).closed
  · simp [Publisher.getChannel, hc] at he
    exact he.symm
  · obtain ⟨c, hcc⟩ := Option.isSome_iff_exists.mp hrun
    simp [Publisher.getChannel, hc, hcc] at he

/-- Concrete run for C9: after a close and a reconnect install, the channel
field is still set. -/
theorem publisher_channel_never_nil_witness :
    (pubRun ⟨some 0, some ⟨0⟩, false⟩
      [PubOp.close, PubOp.reconnectInstall 1 ⟨1⟩]).ch.isSome = true :=
  (publisher_channel_never_nil 0 (.ok ⟨0⟩) (.ok ())
    ⟨some 0, some ⟨0⟩, false⟩ rfl
    [PubOp.close, PubOp.reconnectInstall 1 ⟨1⟩]).1

/-- C10: a serialization failure makes `PublishJSON` return the marshal
error before anything else happens — the effect trace is empty: no span is
started, no header map is built, the channel is not acquired, nothing is
sent (and the call never mutates publisher state on any path). -/
theorem publish_marshal_error_first (p : Publisher)
    (exchangeName routingKey : String) (e : String) (inject : Table → Table)
    (now : Int)
    (sendRes : Chan → String → String → Bool → Bool → Publishing →
      Except String Unit) :
    p.PublishJSON exchangeName routingKey (.error e) inject now sendRes =
      (.error (.marshal e), []) := rfl

end MQ
